import Mathlib

/-!
Verification of the Omnii RDF reasoning service
(`apps/python-rdf/app/main.py`) against its natural-language
specification.

The development shallowly embeds the service core: RDF terms and triples,
the in-memory graph (a set of triples), the ontology baseline seeded by
`setup_ontology`, the context augmenter `enhance_query_with_brain_context`,
the cache digest `generate_query_hash` (the exact `json.dumps(_, sort_keys
=True)` serialization that is fed to the fixed digest function), the query
executor `execute_sparql_query`, the reasoner wrapper `apply_reasoning`,
`evolve_concept`, and `import_rdf_data`.

External collaborators (the rdflib SPARQL evaluatorits parser, the owlrl
rule engine's rule catalogue) are passed in as explicit function
parameters, mirroring the boundary drawn in the specification.  Wall-clock
timing fields and the Redis transport are not modelled; the Redis keyspace
`rdf:query:*` is modelled as an in-state association list from digest to
stored response, and cache-entry TTLs are not modelled (no claim under
verification depends on expiry).
-/

set_option maxRecDepth 100000

namespace OmniiRdf

/-- An RDF term: IRI, literal (lexical form, optional datatype IRI,
optional language tag), or blank node (process-local id). -/
inductive Term
  | iri (value : String)
  | lit (value : String) (datatype : Option String) (language : Option String)
  | blank (id : Nat)
deriving DecidableEq, Repr

/-- A subject-predicate-object triple. -/
structure Triple where
  subj : Term
  pred : Term
  obj : Term
deriving DecidableEq, Repr

/-- A graph is a set of triples (rdflib `Graph` has set semantics:
`add` is idempotent, `len` counts distinct triples). -/
abbrev RdfGraph := Finset Triple

/-! ### Fixed vocabulary (namespaces bound in `main.py`) -/

def omniiNs (l : String) : Term := .iri ("https://omnii.ai/ontology#" ++ l)

def conceptNs (l : String) : Term := .iri ("https://omnii.ai/concept#" ++ l)

def temporalNs (l : String) : Term := .iri ("https://omnii.ai/temporal#" ++ l)

def rdfType : Term := .iri "http://www.w3.org/1999/02/22-rdf-syntax-ns#type"

def rdfsLabel : Term := .iri "http://www.w3.org/2000/01/rdf-schema#label"

def owlClass : Term := .iri "http://www.w3.org/2002/07/owl#Class"

def owlObjectProperty : Term := .iri "http://www.w3.org/2002/07/owl#ObjectProperty"

def owlDatatypeProperty : Term := .iri "http://www.w3.org/2002/07/owl#DatatypeProperty"

/-- The 17 baseline schema triples added by `setup_ontology`
(6 classes, 7 core properties, 4 temporal properties). -/
def baselineTriples : List Triple :=
  [ ⟨omniiNs "Conversation", rdfType, owlClass⟩
  , ⟨omniiNs "Concept", rdfType, owlClass⟩
  , ⟨omniiNs "Tag", rdfType, owlClass⟩
  , ⟨omniiNs "User", rdfType, owlClass⟩
  , ⟨omniiNs "Memory", rdfType, owlClass⟩
  , ⟨omniiNs "BrainContext", rdfType, owlClass⟩
  , ⟨omniiNs "mentions", rdfType, owlObjectProperty⟩
  , ⟨omniiNs "relatesToConcept", rdfType, owlObjectProperty⟩
  , ⟨omniiNs "hasTag", rdfType, owlObjectProperty⟩
  , ⟨omniiNs "hasConfidence", rdfType, owlDatatypeProperty⟩
  , ⟨omniiNs "hasTimestamp", rdfType, owlDatatypeProperty⟩
  , ⟨omniiNs "hasActivationStrength", rdfType, owlDatatypeProperty⟩
  , ⟨omniiNs "hasMemoryStrength", rdfType, owlDatatypeProperty⟩
  , ⟨temporalNs "previousWeek", rdfType, owlDatatypeProperty⟩
  , ⟨temporalNs "currentWeek", rdfType, owlDatatypeProperty⟩
  , ⟨temporalNs "nextWeek", rdfType, owlDatatypeProperty⟩
  , ⟨temporalNs "recentModification", rdfType, owlDatatypeProperty⟩ ]

/-- `setup_ontology`: adds the baseline schema triples to the graph. -/
def setup_ontology (g : RdfGraph) : RdfGraph := g ∪ baselineTriples.toFinset

/-! ### Request models (`pydantic` models in `main.py`).
The `namespaces` request field is omitted: the source never reads it
(`prepareQuery` always receives `self.namespaces`). -/

/-- `BrainContext` request model. -/
structure BrainContext where
  user_id : String
  channel : String
  memory_window_hours : Int := 168
  include_working_memory : Bool := true
  include_episodic_memory : Bool := true
  include_semantic_memory : Bool := true
  temporal_reasoning : Bool := true
deriving DecidableEq, Repr

/-- `QueryRequest` request model. -/
structure QueryRequest where
  query : String
  query_type : String := "SELECT"
  reasoning : Bool := false
  timeout : Int := 10
  limit : Int := 100
  brain_context : Option BrainContext := none
  query_hash : Option String := none
deriving DecidableEq, Repr

/-! ### Text rewriting (`str.replace` of Python)

Python's `str.replace(old, new)` replaces every non-overlapping
occurrence, scanning left to right.  We embed it on `List Char` with a
fuel argument (fuel = length of the text) so that it is structurally
recursive and kernel-reducible. -/

/-- Greedy left-to-right split of `s` on the (non-empty) separator `pat`:
the list of chunks between non-overlapping occurrences of `pat`.
`fuel ≥ s.length` is maintained by every caller. -/
def splitOnAux (pat : List Char) : Nat → List Char → List (List Char)
  | 0, s => [s]
  | f + 1, s =>
    if pat ≠ [] ∧ pat.isPrefixOf s then
      [] :: splitOnAux pat f (s.drop pat.length)
    else
      match s with
      | [] => [[]]
      | c :: s' =>
        match splitOnAux pat f s' with
        | [] => [[c]]
        | h :: t => (c :: h) :: t

def splitOnStr (pat s : List Char) : List (List Char) := splitOnAux pat s.length s

/-- Number of non-overlapping occurrences of `pat` in `s`. -/
def countOccur (pat s : List Char) : Nat := (splitOnStr pat s).length - 1

/-- Python `s.replace(pat, rep)`: replace every non-overlapping
occurrence, scanning left to right (`fuel ≥ s.length` at every call). -/
def replaceAllAux (pat rep : List Char) : Nat → List Char → List Char
  | 0, s => s
  | f + 1, s =>
    if pat ≠ [] ∧ pat.isPrefixOf s then
      rep ++ replaceAllAux pat rep f (s.drop pat.length)
    else
      match s with
      | [] => []
      | c :: s' => c :: replaceAllAux pat rep f s'

def replaceAllStr (pat rep s : List Char) : List Char := replaceAllAux pat rep s.length s

/-! ### `enhance_query_with_brain_context` -/

/-- The block delimiter `"WHERE {"` that the rewrite keys on. -/
def whereDelim : List Char := "WHERE \x7b".data

/-- The exact `user_filter` f-string built (but never inserted!) at lines
271-275 of `main.py`. -/
def user_filter (uid : String) : List Char :=
  ("\n        FILTER EXISTS \x7b\n            ?concept omnii:belongsToUser \"" ++ uid
    ++ "\" .\n        \x7d\n        ").data

/-- The exact `temporal_filter` f-string of lines 279-285 of `main.py`. -/
def temporal_filter : List Char :=
  ("\n            OPTIONAL \x7b\n                ?concept temporal:currentWeek ?current_week_strength .\n                ?concept temporal:previousWeek ?previous_week_strength .\n                ?concept temporal:nextWeek ?next_week_strength .\n            \x7d\n            ").data

/-- `enhance_query_with_brain_context`: with no context the query is
returned unchanged; with a context, the source computes `user_filter`
into a local that is never used, and — when `temporal_reasoning` is set —
replaces (every occurrence of) `"WHERE {"` by `"WHERE {" + temporal_filter`. -/
def enhance_query_with_brain_context (original_query : List Char)
    (brain_context : Option BrainContext) : List Char :=
  match brain_context with
  | none => original_query
  | some ctx =>
    let enhanced_query := original_query
    -- `user_filter ctx.user_id` is constructed here in the source but
    -- never referenced again (dead local variable).
    if ctx.temporal_reasoning then
      replaceAllStr whereDelim (whereDelim ++ temporal_filter) enhanced_query
    else
      enhanced_query

/-- Substring occurrence test, used to state what the augmented text
does (not) contain. -/
def containsSub (pat s : List Char) : Bool := 0 < countOccur pat s

/-- Replacement of only the *first* occurrence, as the claim's wording
("inserts ... at only the first occurrence") describes.  This definition
follows the specification's words, for comparison against the embedding
of the source (`replaceAllStr`); it is not code of the repository. -/
def specReplaceFirstAux (pat rep : List Char) : Nat → List Char → List Char
  | 0, s => s
  | f + 1, s =>
    if pat ≠ [] ∧ pat.isPrefixOf s then
      rep ++ s.drop pat.length
    else
      match s with
      | [] => []
      | c :: s' => c :: specReplaceFirstAux pat rep f s'

def specReplaceFirst (pat rep s : List Char) : List Char :=
  specReplaceFirstAux pat rep s.length s

/-! ### Lemmas about the rewriting machinery -/

theorem splitOnAux_ne_nil (pat : List Char) (f : Nat) (s : List Char) :
    splitOnAux pat f s ≠ [] := by
  induction f generalizing s with
  | zero => simp [splitOnAux]
  | succ f ih =>
    unfold splitOnAux
    split
    · simp
    · cases s with
      | nil => simp
      | cons c s' =>
        cases h : splitOnAux pat f s' with
        | nil => simp [h]
        | cons x t => simp [h]

theorem intercalate_cons_head (sep : List Char) (c : Char) (h : List Char)
    (t : List (List Char)) :
    List.intercalate sep ((c :: h) :: t) = c :: List.intercalate sep (h :: t) := by
  cases t with
  | nil => simp [List.intercalate]
  | cons y t' => simp [List.intercalate, List.intersperse]

theorem intercalate_nil_cons (sep : List Char) (h : List Char)
    (t : List (List Char)) :
    List.intercalate sep ([] :: h :: t) = sep ++ List.intercalate sep (h :: t) := by
  simp [List.intercalate, List.intersperse]

/-- Python `replace` is exactly: split on the pattern, re-join with the
replacement between chunks. -/
theorem replaceAllAux_eq_intercalate (pat rep : List Char) (f : Nat) (s : List Char) :
    replaceAllAux pat rep f s = List.intercalate rep (splitOnAux pat f s) := by
  induction f generalizing s with
  | zero => simp [replaceAllAux, splitOnAux, List.intercalate]
  | succ f ih =>
    unfold replaceAllAux splitOnAux
    split
    · cases h : splitOnAux pat f (s.drop pat.length) with
      | nil => exact absurd h (splitOnAux_ne_nil pat f _)
      | cons x t => simp only [ih, h, intercalate_nil_cons]
    · cases s with
      | nil => simp [List.intercalate]
      | cons c s' =>
        cases h : splitOnAux pat f s' with
        | nil => exact absurd h (splitOnAux_ne_nil pat f s')
        | cons x t => simp only [ih, h, intercalate_cons_head]

/-- Re-joining the split with the pattern itself restores the text. -/
theorem intercalate_splitOnAux (pat : List Char) (f : Nat) (s : List Char) :
    List.intercalate pat (splitOnAux pat f s) = s := by
  induction f generalizing s with
  | zero => simp [splitOnAux, List.intercalate]
  | succ f ih =>
    unfold splitOnAux
    split
    · rename_i hcond
      obtain ⟨hne, hpre⟩ := hcond
      cases h : splitOnAux pat f (s.drop pat.length) with
      | nil => exact absurd h (splitOnAux_ne_nil pat f _)
      | cons x xs =>
        rw [intercalate_nil_cons]
        rw [← h]
        rw [ih]
        obtain ⟨t, ht⟩ := List.isPrefixOf_iff_prefix.mp hpre
        rw [← ht, List.drop_left]
    · cases s with
      | nil => simp [List.intercalate]
      | cons c s' =>
        cases h : splitOnAux pat f s' with
        | nil => exact absurd h (splitOnAux_ne_nil pat f s')
        | cons x t =>
          simp only [h, intercalate_cons_head]
          rw [← h, ih]

/-- When the pattern does not occur, the split is the whole text and
`replace` is the identity. -/
theorem splitOnStr_of_countOccur_zero (pat s : List Char)
    (h : countOccur pat s = 0) : splitOnStr pat s = [s] := by
  have hne := splitOnAux_ne_nil pat s.length s
  unfold countOccur at h
  cases hsplit : splitOnStr pat s with
  | nil => exact absurd hsplit hne
  | cons x t =>
    cases t with
    | nil =>
      have hx : List.intercalate pat [x] = s := by
        rw [← hsplit]; exact intercalate_splitOnAux pat s.length s
      simp [List.intercalate] at hx
      rw [hx]
    | cons y t' => rw [hsplit] at h; simp at h

/-! ### Concrete fixtures for the context augmenter -/

/-- A well-formed query with a single `WHERE {` block. -/
def sampleQuery : List Char :=
  "SELECT ?concept WHERE \x7b ?concept rdf:type omnii:Concept \x7d".data

/-- A context with temporal reasoning enabled (the model's default). -/
def sampleCtx : BrainContext := { user_id := "user-123", channel := "sms" }

/-- The same context with the temporal-reasoning flag cleared. -/
def sampleCtxNoTemporal : BrainContext :=
  { user_id := "user-123", channel := "sms", temporal_reasoning := false }

/-- A query in which the block delimiter `WHERE {` occurs twice
(subquery nested inside the outer block). -/
def nestedQuery : List Char :=
  "SELECT * WHERE \x7b ?s ?p ?o . \x7b SELECT ?s WHERE \x7b ?s a ?c \x7d \x7d \x7d".data

/-- Claim C2: the augmenter never inserts the user-scope existence
filter.  The source builds `user_filter` (lines 271-275) but never
splices it into the query: with the temporal flag cleared the output is
the input unchanged, and even with the temporal flag set the output
contains neither `FILTER EXISTS` nor `belongsToUser` nor the context's
user id.  This contradicts the claim (and the source's own comment
`# Add user context filter`): the user-scope filter is dead code. -/
theorem C2_user_scope_filter_never_inserted :
    enhance_query_with_brain_context sampleQuery (some sampleCtxNoTemporal) = sampleQuery
    ∧ containsSub ("FILTER EXISTS".data)
        (enhance_query_with_brain_context sampleQuery (some sampleCtx)) = false
    ∧ containsSub ("belongsToUser".data)
        (enhance_query_with_brain_context sampleQuery (some sampleCtx)) = false
    ∧ containsSub ("user-123".data)
        (enhance_query_with_brain_context sampleQuery (some sampleCtx)) = false := by
  refine ⟨rfl, ?_, ?_, ?_⟩ <;> decide

/-- Claim C3 (counterexample): on a query where `WHERE {` occurs twice,
the augmenter does *not* rewrite only the first occurrence — Python's
`str.replace` rewrites every occurrence — so the output differs from the
only-first rewrite the claim describes. -/
theorem C3_counterexample_rewrites_all_occurrences :
    countOccur whereDelim nestedQuery = 2
    ∧ enhance_query_with_brain_context nestedQuery (some sampleCtx)
        ≠ specReplaceFirst whereDelim (whereDelim ++ temporal_filter) nestedQuery := by
  constructor
  · decide
  · decide

/-- Claim C3 (amended): with the temporal flag set, the rewrite is the
split-on-delimiter re-join that inserts the temporal sub-pattern after
*every* occurrence of `WHERE {` (not only the first); in particular it
is a no-op when the delimiter does not occur. -/
theorem C3_temporal_rewrite_every_occurrence (q : List Char) (ctx : BrainContext)
    (h : ctx.temporal_reasoning = true) :
    enhance_query_with_brain_context q (some ctx)
        = List.intercalate (whereDelim ++ temporal_filter) (splitOnStr whereDelim q)
    ∧ (countOccur whereDelim q = 0 → enhance_query_with_brain_context q (some ctx) = q) := by
  have he : enhance_query_with_brain_context q (some ctx)
      = replaceAllStr whereDelim (whereDelim ++ temporal_filter) q := by
    simp [enhance_query_with_brain_context, h]
  have hch : replaceAllStr whereDelim (whereDelim ++ temporal_filter) q
      = List.intercalate (whereDelim ++ temporal_filter) (splitOnStr whereDelim q) :=
    replaceAllAux_eq_intercalate _ _ _ _
  refine ⟨he.trans hch, fun h0 => ?_⟩
  rw [he, hch, splitOnStr_of_countOccur_zero _ _ h0]
  simp [List.intercalate]

/-- Witness for the amended C3 theorem at a concrete query and context. -/
theorem C3_temporal_rewrite_witness :
    sampleCtx.temporal_reasoning = true
    ∧ enhance_query_with_brain_context sampleQuery (some sampleCtx)
        = List.intercalate (whereDelim ++ temporal_filter) (splitOnStr whereDelim sampleQuery) :=
  ⟨rfl, (C3_temporal_rewrite_every_occurrence sampleQuery sampleCtx rfl).1⟩

/-! ### The cache digest (`generate_query_hash`)

The source computes
`hashlib.md5(json.dumps(hash_input, sort_keys=True).encode()).hexdigest()`
over `hash_input = {"query": ..., "reasoning": ..., "brain_context": ...}`.
We embed the exact `json.dumps(_, sort_keys=True)` serialization
(CPython's default encoder: `ensure_ascii=True`, separators `", "` and
`": "`, keys in sorted order).  md5 itself is a fixed deterministic
function of this byte string, so we model the digest by its md5 input:
equality/inequality of digests tracks equality/inequality of these
serializations (up to md5 collisions, which the specification's
"deterministic fixed-width digest" abstraction already assumes away). -/

def hexDigitCh (n : Nat) : Char :=
  if n < 10 then Char.ofNat (48 + n) else Char.ofNat (87 + n)

/-- Four lowercase hex digits, most significant first (`\uXXXX` body). -/
def hex4 (n : Nat) : List Char :=
  [hexDigitCh (n / 4096 % 16), hexDigitCh (n / 256 % 16),
   hexDigitCh (n / 16 % 16), hexDigitCh (n % 16)]

/-- CPython `json` escaping of one character (`ensure_ascii=True`):
`"` `\` and the named control characters get two-character escapes, all
other characters outside `0x20`-`0x7e` get `\uXXXX` escapes (a surrogate
pair for astral characters), the rest are copied verbatim. -/
def escChar (c : Char) : List Char :=
  if c = '"' then ['\\', '"']
  else if c = '\\' then ['\\', '\\']
  else if c = '\n' then ['\\', 'n']
  else if c = '\r' then ['\\', 'r']
  else if c = '\t' then ['\\', 't']
  else if c.toNat = 8 then ['\\', 'b']
  else if c.toNat = 12 then ['\\', 'f']
  else if c.toNat < 32 ∨ 127 ≤ c.toNat then
    if c.toNat < 65536 then
      '\\' :: 'u' :: hex4 c.toNat
    else
      ('\\' :: 'u' :: hex4 (55296 + (c.toNat - 65536) / 1024))
        ++ ('\\' :: 'u' :: hex4 (56320 + (c.toNat - 65536) % 1024))
  else [c]

def jsonEscape (s : List Char) : List Char := (s.map escChar).flatten

/-- A JSON string literal: quote, escaped content, quote. -/
def jsonStr (s : String) : List Char := '"' :: (jsonEscape s.data ++ ['"'])

def jsonBool : Bool → List Char
  | true => "true".data
  | false => "false".data

/-- Decimal digits of `n`, most significant first (fuel-based so that it
is structurally recursive; `natStr` passes enough fuel). -/
def natStrAux : Nat → Nat → List Char
  | 0, _ => []
  | f + 1, n => if n = 0 then [] else natStrAux f (n / 10) ++ [Char.ofNat (48 + n % 10)]

def natStr (n : Nat) : List Char := if n = 0 then ['0'] else natStrAux (n + 1) n

/-- Python `str(int)`: optional minus sign, then decimal digits. -/
def intStr (i : Int) : List Char := if i < 0 then '-' :: natStr i.natAbs else natStr i.toNat

/-- `json.dumps(brain_context.dict(), sort_keys=True)` body: the seven
`BrainContext` fields, keys in sorted order. -/
def ctxJson (c : BrainContext) : List Char :=
  "\x7b\"channel\": ".data ++ (jsonStr c.channel
    ++ (", \"include_episodic_memory\": ".data ++ (jsonBool c.include_episodic_memory
    ++ (", \"include_semantic_memory\": ".data ++ (jsonBool c.include_semantic_memory
    ++ (", \"include_working_memory\": ".data ++ (jsonBool c.include_working_memory
    ++ (", \"memory_window_hours\": ".data ++ (intStr c.memory_window_hours
    ++ (", \"temporal_reasoning\": ".data ++ (jsonBool c.temporal_reasoning
    ++ (", \"user_id\": ".data ++ (jsonStr c.user_id
    ++ "\x7d".data)))))))))))))

def ctxOptJson : Option BrainContext → List Char
  | none => "null".data
  | some c => ctxJson c

/-- `json.dumps(hash_input, sort_keys=True)` for
`hash_input = {"query": r.query, "reasoning": r.reasoning,
"brain_context": r.brain_context.dict() or None}`: sorted key order is
`brain_context`, `query`, `reasoning`. -/
def hashInputChars (r : QueryRequest) : List Char :=
  "\x7b\"brain_context\": ".data ++ (ctxOptJson r.brain_context
    ++ (", \"query\": ".data ++ (jsonStr r.query
    ++ (", \"reasoning\": ".data ++ (jsonBool r.reasoning
    ++ "\x7d".data)))))

/-- `generate_query_hash`: md5 of the canonical serialization above,
modelled by the serialization itself (see the section comment). -/
def generate_query_hash (r : QueryRequest) : String := ⟨hashInputChars r⟩

/-! ### A decoder for the serialization

To prove the digest content-sensitive we exhibit a left inverse of
`hashInputChars`: a parser that recovers the query text, the reasoning
flag and the context from the serialized form.  Injectivity of the
serialization on those three components is then immediate. -/

def isDigitCh (c : Char) : Bool := decide (48 ≤ c.toNat ∧ c.toNat ≤ 57)

def isHexCh (c : Char) : Bool :=
  decide ((48 ≤ c.toNat ∧ c.toNat ≤ 57) ∨ (97 ≤ c.toNat ∧ c.toNat ≤ 102))

def hexVal (c : Char) : Nat := if c.toNat ≤ 57 then c.toNat - 48 else c.toNat - 87

def hex4Val (a b c d : Char) : Nat :=
  ((hexVal a * 16 + hexVal b) * 16 + hexVal c) * 16 + hexVal d

def unescSimple (e : Char) : Option Char :=
  if e = '"' then some '"'
  else if e = '\\' then some '\\'
  else if e = 'n' then some '\n'
  else if e = 'r' then some '\r'
  else if e = 't' then some '\t'
  else if e = 'b' then some (Char.ofNat 8)
  else if e = 'f' then some (Char.ofNat 12)
  else none

/-- Parse the body of a JSON string up to its closing quote, undoing
`escChar`; returns the decoded characters and the remainder after the
closing quote. -/
def parseJStrAux : Nat → List Char → Option (List Char × List Char)
  | 0, _ => none
  | f + 1, s =>
    match s with
    | [] => none
    | c :: rest =>
      if c = '"' then some ([], rest)
      else if c = '\\' then
        match rest with
        | [] => none
        | e :: rest2 =>
          if e = 'u' then
            match rest2 with
            | a :: b :: c3 :: d :: rest3 =>
              if isHexCh a && isHexCh b && isHexCh c3 && isHexCh d then
                if 55296 ≤ hex4Val a b c3 d ∧ hex4Val a b c3 d ≤ 56319 then
                  match rest3 with
                  | e2 :: u2 :: a2 :: b2 :: c4 :: d2 :: rest4 =>
                    if e2 = '\\' ∧ u2 = 'u'
                        ∧ (isHexCh a2 && isHexCh b2 && isHexCh c4 && isHexCh d2)
                        ∧ 56320 ≤ hex4Val a2 b2 c4 d2 ∧ hex4Val a2 b2 c4 d2 ≤ 57343 then
                      match parseJStrAux f rest4 with
                      | some (cs, rem) =>
                        some (Char.ofNat (65536 + (hex4Val a b c3 d - 55296) * 1024
                          + (hex4Val a2 b2 c4 d2 - 56320)) :: cs, rem)
                      | none => none
                    else none
                  | _ => none
                else if 56320 ≤ hex4Val a b c3 d ∧ hex4Val a b c3 d ≤ 57343 then none
                else
                  match parseJStrAux f rest3 with
                  | some (cs, rem) => some (Char.ofNat (hex4Val a b c3 d) :: cs, rem)
                  | none => none
              else none
            | _ => none
          else
            match unescSimple e with
            | some c2 =>
              match parseJStrAux f rest2 with
              | some (cs, rem) => some (c2 :: cs, rem)
              | none => none
            | none => none
      else
        match parseJStrAux f rest with
        | some (cs, rem) => some (c :: cs, rem)
        | none => none

/-- Parse a JSON string literal (opening quote, body, closing quote). -/
def parseJString (fuel : Nat) (s : List Char) : Option (List Char × List Char) :=
  match s with
  | [] => none
  | c :: rest => if c = '"' then parseJStrAux fuel rest else none

/-- Consume an expected literal text, returning the remainder. -/
def expectLit : List Char → List Char → Option (List Char)
  | [], s => some s
  | _ :: _, [] => none
  | c :: cs, d :: ds => if c = d then expectLit cs ds else none

def parseBool (s : List Char) : Option (Bool × List Char) :=
  match expectLit "true".data s with
  | some r => some (true, r)
  | none =>
    match expectLit "false".data s with
    | some r => some (false, r)
    | none => none

/-- Consume a maximal run of decimal digits, folding them into `acc`. -/
def parseNatAux : List Char → Nat → Nat × List Char
  | [], acc => (acc, [])
  | c :: rest, acc =>
    if isDigitCh c then parseNatAux rest (acc * 10 + (c.toNat - 48)) else (acc, c :: rest)

def parseInt (s : List Char) : Option (Int × List Char) :=
  match s with
  | [] => none
  | c :: rest =>
    if c = '-' then
      match rest with
      | [] => none
      | d :: _ =>
        if isDigitCh d then
          some (-((parseNatAux rest 0).1 : Int), (parseNatAux rest 0).2)
        else none
    else if isDigitCh c then
      some (((parseNatAux (c :: rest) 0).1 : Int), (parseNatAux (c :: rest) 0).2)
    else none

/-- Parse the serialized `BrainContext` object produced by `ctxJson`. -/
def parseCtx (fuel : Nat) (s : List Char) : Option (BrainContext × List Char) := do
  let s ← expectLit "\x7b\"channel\": ".data s
  let (channel, s) ← parseJString fuel s
  let s ← expectLit ", \"include_episodic_memory\": ".data s
  let (iem, s) ← parseBool s
  let s ← expectLit ", \"include_semantic_memory\": ".data s
  let (ism, s) ← parseBool s
  let s ← expectLit ", \"include_working_memory\": ".data s
  let (iwm, s) ← parseBool s
  let s ← expectLit ", \"memory_window_hours\": ".data s
  let (mwh, s) ← parseInt s
  let s ← expectLit ", \"temporal_reasoning\": ".data s
  let (tr, s) ← parseBool s
  let s ← expectLit ", \"user_id\": ".data s
  let (uid, s) ← parseJString fuel s
  let s ← expectLit "\x7d".data s
  pure (⟨⟨uid⟩, ⟨channel⟩, mwh, iwm, iem, ism, tr⟩, s)

def parseCtxOpt (fuel : Nat) (s : List Char) : Option (Option BrainContext × List Char) :=
  match expectLit "null".data s with
  | some r => some (none, r)
  | none =>
    match parseCtx fuel s with
    | some (c, r) => some (some c, r)
    | none => none

/-- Decode the full `hashInputChars` serialization back into the triple
(context, query text, reasoning flag); fails unless the whole input is
consumed. -/
def decodeHashInput (fuel : Nat) (s : List Char) :
    Option (Option BrainContext × String × Bool) := do
  let s ← expectLit "\x7b\"brain_context\": ".data s
  let (ctx, s) ← parseCtxOpt fuel s
  let s ← expectLit ", \"query\": ".data s
  let (q, s) ← parseJString fuel s
  let s ← expectLit ", \"reasoning\": ".data s
  let (b, s) ← parseBool s
  let s ← expectLit "\x7d".data s
  match s with
  | [] => pure (ctx, ⟨q⟩, b)
  | _ :: _ => none

/-! ### Round-trip lemmas: the decoder is a left inverse of the
serializer -/

theorem expectLit_append (lit rest : List Char) : expectLit lit (lit ++ rest) = some rest := by
  induction lit with
  | nil => rfl
  | cons c cs ih => simp [expectLit, ih]

theorem char_toNat_ofNat {n : Nat} (h : n.isValidChar) : (Char.ofNat n).toNat = n := by
  rw [Char.ofNat, dif_pos h]; rfl

theorem char_valid_toNat (c : Char) :
    c.toNat < 55296 ∨ (57344 ≤ c.toNat ∧ c.toNat < 1114112) := c.valid

theorem isHexCh_hexDigitCh {m : Nat} (h : m < 16) : isHexCh (hexDigitCh m) = true := by
  interval_cases m <;> decide

theorem hexVal_hexDigitCh {m : Nat} (h : m < 16) : hexVal (hexDigitCh m) = m := by
  interval_cases m <;> decide

theorem hex4Val_hex4 {n : Nat} (h : n < 65536) :
    hex4Val (hexDigitCh (n / 4096 % 16)) (hexDigitCh (n / 256 % 16))
      (hexDigitCh (n / 16 % 16)) (hexDigitCh (n % 16)) = n := by
  unfold hex4Val
  rw [hexVal_hexDigitCh (Nat.mod_lt _ (by norm_num)),
    hexVal_hexDigitCh (Nat.mod_lt _ (by norm_num)),
    hexVal_hexDigitCh (Nat.mod_lt _ (by norm_num)),
    hexVal_hexDigitCh (Nat.mod_lt _ (by norm_num))]
  omega

theorem parseBool_append (b : Bool) (rest : List Char) :
    parseBool (jsonBool b ++ rest) = some (b, rest) := by
  cases b
  · show parseBool ("false".data ++ rest) = some (false, rest)
    unfold parseBool
    rw [show expectLit "true".data ("false".data ++ rest) = none from rfl]
    rw [expectLit_append]
  · show parseBool ("true".data ++ rest) = some (true, rest)
    unfold parseBool
    rw [expectLit_append]

theorem natStrAux_digits (f : Nat) : ∀ (n : Nat), ∀ c ∈ natStrAux f n, isDigitCh c = true := by
  induction f with
  | zero => intro n c hc; simp [natStrAux] at hc
  | succ f ih =>
    intro n c hc
    unfold natStrAux at hc
    by_cases hn : n = 0
    · simp [hn] at hc
    · rw [if_neg hn, List.mem_append] at hc
      rcases hc with h1 | h2
      · exact ih _ c h1
      · simp at h2
        subst h2
        have hv : (48 + n % 10).isValidChar := Or.inl (by omega)
        simp [isDigitCh, char_toNat_ofNat hv]
        omega

theorem natStr_digits (n : Nat) : ∀ c ∈ natStr n, isDigitCh c = true := by
  unfold natStr
  by_cases hn : n = 0
  · simp [hn]; decide
  · rw [if_neg hn]; exact natStrAux_digits _ n

theorem natStrAux_ne_nil {f n : Nat} (hf : n ≤ f) (hn : n ≠ 0) : natStrAux f n ≠ [] := by
  cases f with
  | zero => omega
  | succ f => unfold natStrAux; rw [if_neg hn]; simp

theorem natStr_ne_nil (n : Nat) : natStr n ≠ [] := by
  unfold natStr
  by_cases hn : n = 0
  · simp [hn]
  · rw [if_neg hn]; exact natStrAux_ne_nil (by omega) hn

theorem parseNatAux_digits_append (t : List Char)
    (ht : ∀ c, t.head? = some c → isDigitCh c = false) :
    ∀ (ds : List Char), (∀ c ∈ ds, isDigitCh c = true) → ∀ (acc : Nat),
    parseNatAux (ds ++ t) acc = (ds.foldl (fun a c => a * 10 + (c.toNat - 48)) acc, t) := by
  intro ds
  induction ds with
  | nil =>
    intro _ acc
    simp only [List.nil_append, List.foldl_nil]
    cases t with
    | nil => rfl
    | cons c t' => unfold parseNatAux; rw [if_neg (by simp [ht c rfl])]
  | cons c cs ih =>
    intro hds acc
    have hc : isDigitCh c = true := hds c (List.mem_cons_self c cs)
    simp only [List.cons_append, List.foldl_cons]
    unfold parseNatAux
    rw [if_pos hc]
    exact ih (fun x hx => hds x (List.mem_cons_of_mem c hx)) _

theorem foldl_natStrAux (f : Nat) : ∀ (n : Nat), n ≤ f → ∀ (acc : Nat),
    (natStrAux f n).foldl (fun a c => a * 10 + (c.toNat - 48)) acc
      = acc * 10 ^ (natStrAux f n).length + n := by
  induction f with
  | zero => intro n hn acc; simp [natStrAux]; omega
  | succ f ih =>
    intro n hn acc
    unfold natStrAux
    by_cases hz : n = 0
    · simp [hz]
    · rw [if_neg hz, List.foldl_append, List.length_append]
      rw [ih (n / 10) (by omega) acc]
      have hv : (48 + n % 10).isValidChar := Or.inl (by omega)
      simp only [List.foldl_cons, List.foldl_nil, List.length_cons, List.length_nil,
        char_toNat_ofNat hv]
      generalize (natStrAux f (n / 10)).length = L
      have hmod : n / 10 * 10 + n % 10 = n := by omega
      have hstep : (acc * 10 ^ L + n / 10) * 10 + (48 + n % 10 - 48)
          = acc * (10 ^ L * 10) + (n / 10 * 10 + n % 10) := by
        have h48 : 48 + n % 10 - 48 = n % 10 := by omega
        rw [h48]; ring
      rw [hstep, hmod, ← pow_succ]

theorem natStr_foldl (n : Nat) :
    (natStr n).foldl (fun a c => a * 10 + (c.toNat - 48)) 0 = n := by
  unfold natStr
  by_cases hz : n = 0
  · simp [hz]
  · rw [if_neg hz, foldl_natStrAux (n + 1) n (by omega) 0]
    simp

theorem parseNat_natStr (n : Nat) (t : List Char)
    (ht : ∀ c, t.head? = some c → isDigitCh c = false) :
    parseNatAux (natStr n ++ t) 0 = (n, t) := by
  rw [parseNatAux_digits_append t ht (natStr n) (natStr_digits n) 0, natStr_foldl]

theorem parseInt_intStr (i : Int) (t : List Char)
    (ht : ∀ c, t.head? = some c → isDigitCh c = false) :
    parseInt (intStr i ++ t) = some (i, t) := by
  unfold intStr
  obtain ⟨d, ds, hd⟩ : ∃ d ds, natStr (if i < 0 then i.natAbs else i.toNat) = d :: ds := by
    cases hh : natStr (if i < 0 then i.natAbs else i.toNat) with
    | nil => exact absurd hh (natStr_ne_nil _)
    | cons d ds => exact ⟨d, ds, rfl⟩
  have hdig : isDigitCh d = true :=
    natStr_digits _ d (by rw [hd]; exact List.mem_cons_self _ _)
  have hback : d :: (ds ++ t) = natStr (if i < 0 then i.natAbs else i.toNat) ++ t := by
    rw [hd, List.cons_append]
  by_cases hneg : i < 0
  · rw [if_pos hneg]
    rw [if_pos hneg] at hd hback
    simp only [List.cons_append]
    rw [hd]
    simp only [List.cons_append, parseInt, if_pos rfl, if_pos hdig]
    rw [hback, parseNat_natStr _ _ ht]
    have hi : -(i.natAbs : Int) = i := by omega
    rw [hi]
    simp
  · rw [if_neg hneg]
    rw [if_neg hneg] at hd hback
    rw [hd]
    simp only [List.cons_append]
    have hdm : d ≠ '-' := by
      intro h
      rw [h] at hdig
      exact absurd hdig (by decide)
    simp only [parseInt, if_neg hdm, if_pos hdig]
    rw [hback, parseNat_natStr _ _ ht]
    have hi : ((i.toNat : Nat) : Int) = i := by omega
    rw [hi]

theorem jsonEscape_cons (c : Char) (cs : List Char) :
    jsonEscape (c :: cs) = escChar c ++ jsonEscape cs := by
  simp [jsonEscape]

/-- The string-body parser undoes `escChar`-escaping: reading the escaped
form of `s` followed by a closing quote yields `s` and the remainder. -/
theorem parseJStrAux_jsonEscape : ∀ (s : List Char) (rest : List Char) (f : Nat),
    s.length < f → parseJStrAux f (jsonEscape s ++ '"' :: rest) = some (s, rest) := by
  intro s
  induction s with
  | nil =>
    intro rest f hf
    obtain ⟨f', rfl⟩ : ∃ f', f = f' + 1 := ⟨f - 1, by omega⟩
    simp [jsonEscape, parseJStrAux]
  | cons c cs ih =>
    intro rest f hf
    obtain ⟨f', rfl⟩ : ∃ f', f = f' + 1 := ⟨f - 1, by omega⟩
    have hf' : cs.length < f' := by simp at hf; omega
    have ihx := ih rest f' hf'
    rw [jsonEscape_cons, List.append_assoc]
    have hval := char_valid_toNat c
    unfold escChar
    split_ifs with h1 h2 h3 h4 h5 h6 h7 h8 h9
    · subst h1; simp [parseJStrAux, unescSimple, ihx]
    · subst h2; simp [parseJStrAux, unescSimple, ihx]
    · subst h3; simp [parseJStrAux, unescSimple, ihx]
    · subst h4; simp [parseJStrAux, unescSimple, ihx]
    · subst h5; simp [parseJStrAux, unescSimple, ihx]
    · have hc : c = Char.ofNat 8 := by rw [← Char.ofNat_toNat c, h6]
      subst hc; simp [parseJStrAux, unescSimple, ihx]
    · have hc : c = Char.ofNat 12 := by rw [← Char.ofNat_toNat c, h7]
      subst hc; simp [parseJStrAux, unescSimple, ihx]
    · -- BMP `\uXXXX` escape
      have hx1 : isHexCh (hexDigitCh (c.toNat / 4096 % 16)) = true :=
        isHexCh_hexDigitCh (Nat.mod_lt _ (by norm_num))
      have hx2 : isHexCh (hexDigitCh (c.toNat / 256 % 16)) = true :=
        isHexCh_hexDigitCh (Nat.mod_lt _ (by norm_num))
      have hx3 : isHexCh (hexDigitCh (c.toNat / 16 % 16)) = true :=
        isHexCh_hexDigitCh (Nat.mod_lt _ (by norm_num))
      have hx4 : isHexCh (hexDigitCh (c.toNat % 16)) = true :=
        isHexCh_hexDigitCh (Nat.mod_lt _ (by norm_num))
      have hv4 : hex4Val (hexDigitCh (c.toNat / 4096 % 16)) (hexDigitCh (c.toNat / 256 % 16))
          (hexDigitCh (c.toNat / 16 % 16)) (hexDigitCh (c.toNat % 16)) = c.toNat :=
        hex4Val_hex4 h9
      have hn1 : ¬(55296 ≤ c.toNat ∧ c.toNat ≤ 56319) := by omega
      have hn2 : ¬(56320 ≤ c.toNat ∧ c.toNat ≤ 57343) := by omega
      simp only [hex4, List.cons_append, List.append_assoc, List.nil_append, parseJStrAux,
        hx1, hx2, hx3, hx4, hv4, Bool.and_self, Bool.and_true, eq_self_iff_true, if_true,
        hn1, hn2, if_false, ihx, Char.ofNat_toNat]
      rw [if_neg (show ¬('\\' : Char) = '"' by decide)]
    · -- astral character: surrogate-pair escape
      have hge : 65536 ≤ c.toNat := by omega
      have hlt : c.toNat < 1114112 := by omega
      have hq : (c.toNat - 65536) / 1024 < 1024 := by omega
      have hr : (c.toNat - 65536) % 1024 < 1024 := Nat.mod_lt _ (by norm_num)
      have hx1 : isHexCh (hexDigitCh ((55296 + (c.toNat - 65536) / 1024) / 4096 % 16)) = true :=
        isHexCh_hexDigitCh (Nat.mod_lt _ (by norm_num))
      have hx2 : isHexCh (hexDigitCh ((55296 + (c.toNat - 65536) / 1024) / 256 % 16)) = true :=
        isHexCh_hexDigitCh (Nat.mod_lt _ (by norm_num))
      have hx3 : isHexCh (hexDigitCh ((55296 + (c.toNat - 65536) / 1024) / 16 % 16)) = true :=
        isHexCh_hexDigitCh (Nat.mod_lt _ (by norm_num))
      have hx4 : isHexCh (hexDigitCh ((55296 + (c.toNat - 65536) / 1024) % 16)) = true :=
        isHexCh_hexDigitCh (Nat.mod_lt _ (by norm_num))
      have hy1 : isHexCh (hexDigitCh ((56320 + (c.toNat - 65536) % 1024) / 4096 % 16)) = true :=
        isHexCh_hexDigitCh (Nat.mod_lt _ (by norm_num))
      have hy2 : isHexCh (hexDigitCh ((56320 + (c.toNat - 65536) % 1024) / 256 % 16)) = true :=
        isHexCh_hexDigitCh (Nat.mod_lt _ (by norm_num))
      have hy3 : isHexCh (hexDigitCh ((56320 + (c.toNat - 65536) % 1024) / 16 % 16)) = true :=
        isHexCh_hexDigitCh (Nat.mod_lt _ (by norm_num))
      have hy4 : isHexCh (hexDigitCh ((56320 + (c.toNat - 65536) % 1024) % 16)) = true :=
        isHexCh_hexDigitCh (Nat.mod_lt _ (by norm_num))
      have hv4a : hex4Val (hexDigitCh ((55296 + (c.toNat - 65536) / 1024) / 4096 % 16))
          (hexDigitCh ((55296 + (c.toNat - 65536) / 1024) / 256 % 16))
          (hexDigitCh ((55296 + (c.toNat - 65536) / 1024) / 16 % 16))
          (hexDigitCh ((55296 + (c.toNat - 65536) / 1024) % 16))
          = 55296 + (c.toNat - 65536) / 1024 := hex4Val_hex4 (by omega)
      have hv4b : hex4Val (hexDigitCh ((56320 + (c.toNat - 65536) % 1024) / 4096 % 16))
          (hexDigitCh ((56320 + (c.toNat - 65536) % 1024) / 256 % 16))
          (hexDigitCh ((56320 + (c.toNat - 65536) % 1024) / 16 % 16))
          (hexDigitCh ((56320 + (c.toNat - 65536) % 1024) % 16))
          = 56320 + (c.toNat - 65536) % 1024 := hex4Val_hex4 (by omega)
      have hp1 : 55296 ≤ 55296 + (c.toNat - 65536) / 1024
          ∧ 55296 + (c.toNat - 65536) / 1024 ≤ 56319 := by omega
      have hp2 : 56320 ≤ 56320 + (c.toNat - 65536) % 1024
          ∧ 56320 + (c.toNat - 65536) % 1024 ≤ 57343 := by omega
      have harith : 65536 + (55296 + (c.toNat - 65536) / 1024 - 55296) * 1024
          + (56320 + (c.toNat - 65536) % 1024 - 56320) = c.toNat := by omega
      simp only [hex4, List.cons_append, List.append_assoc, List.nil_append, parseJStrAux,
        hx1, hx2, hx3, hx4, hy1, hy2, hy3, hy4, hv4a, hv4b, Bool.and_self, Bool.and_true,
        eq_self_iff_true, if_true, true_and, hp1, hp2, hp1.1, hp1.2, hp2.1, hp2.2,
        and_self, harith, ihx, Char.ofNat_toNat]
      rw [if_neg (show ¬('\\' : Char) = '"' by decide)]
    · -- plain printable character, copied verbatim
      simp only [List.singleton_append]
      simp only [parseJStrAux]
      rw [if_neg h1, if_neg h2]
      simp only [ihx]

theorem parseJString_jsonStr (q : String) (rest : List Char) (f : Nat)
    (hf : q.data.length < f) :
    parseJString f (jsonStr q ++ rest) = some (q.data, rest) := by
  have hshape : jsonStr q ++ rest = '"' :: (jsonEscape q.data ++ '"' :: rest) := by
    simp [jsonStr]
  rw [hshape]
  simp only [parseJString, if_pos rfl]
  exact parseJStrAux_jsonEscape q.data rest f hf

theorem parseInt_before_tr (i : Int) (t : List Char) :
    parseInt (intStr i ++ (", \"temporal_reasoning\": ".data ++ t))
      = some (i, ", \"temporal_reasoning\": ".data ++ t) := by
  apply parseInt_intStr
  intro ch hh
  have h0 : ((", \"temporal_reasoning\": ".data ++ t)).head? = some ',' := rfl
  rw [h0] at hh
  simp only [Option.some.injEq] at hh
  subst hh
  decide

theorem parseCtx_ctxJson (c : BrainContext) (rest : List Char) (f : Nat)
    (hch : c.channel.data.length < f) (huid : c.user_id.data.length < f) :
    parseCtx f (ctxJson c ++ rest) = some (c, rest) := by
  unfold parseCtx ctxJson
  repeat rw [List.append_assoc]
  rw [expectLit_append]
  dsimp only [Option.bind_eq_bind, Option.some_bind]
  rw [parseJString_jsonStr _ _ _ hch]
  dsimp only [Option.bind_eq_bind, Option.some_bind]
  rw [expectLit_append]
  dsimp only [Option.bind_eq_bind, Option.some_bind]
  rw [parseBool_append]
  dsimp only [Option.bind_eq_bind, Option.some_bind]
  rw [expectLit_append]
  dsimp only [Option.bind_eq_bind, Option.some_bind]
  rw [parseBool_append]
  dsimp only [Option.bind_eq_bind, Option.some_bind]
  rw [expectLit_append]
  dsimp only [Option.bind_eq_bind, Option.some_bind]
  rw [parseBool_append]
  dsimp only [Option.bind_eq_bind, Option.some_bind]
  rw [expectLit_append]
  dsimp only [Option.bind_eq_bind, Option.some_bind]
  rw [parseInt_before_tr]
  dsimp only [Option.bind_eq_bind, Option.some_bind]
  rw [expectLit_append]
  dsimp only [Option.bind_eq_bind, Option.some_bind]
  rw [parseBool_append]
  dsimp only [Option.bind_eq_bind, Option.some_bind]
  rw [expectLit_append]
  dsimp only [Option.bind_eq_bind, Option.some_bind]
  rw [parseJString_jsonStr _ _ _ huid]
  dsimp only [Option.bind_eq_bind, Option.some_bind]
  rw [expectLit_append]
  rfl

theorem parseCtxOpt_null (f : Nat) (rest : List Char) :
    parseCtxOpt f ("null".data ++ rest) = some (none, rest) := by
  unfold parseCtxOpt
  rw [expectLit_append]

theorem parseCtxOpt_ctxJson (f : Nat) (c : BrainContext) (rest : List Char)
    (hch : c.channel.data.length < f) (huid : c.user_id.data.length < f) :
    parseCtxOpt f (ctxJson c ++ rest) = some (some c, rest) := by
  unfold parseCtxOpt
  rw [show expectLit "null".data (ctxJson c ++ rest) = none from rfl]
  rw [parseCtx_ctxJson c rest f hch huid]

/-- Combined length of the string fields of an optional context; used
only to pick a sufficient fuel value. -/
def ctxLen : Option BrainContext → Nat
  | none => 0
  | some c => c.channel.data.length + c.user_id.data.length

/-- The decoder recovers the (context, query, reasoning) triple from the
serialized digest input: the serialization is lossless. -/
theorem decodeHashInput_hashInputChars (r : QueryRequest) (f : Nat)
    (hq : r.query.data.length < f)
    (hctx : ∀ c, r.brain_context = some c →
      c.channel.data.length < f ∧ c.user_id.data.length < f) :
    decodeHashInput f (hashInputChars r) = some (r.brain_context, r.query, r.reasoning) := by
  unfold decodeHashInput hashInputChars
  rw [expectLit_append]
  dsimp only [Option.bind_eq_bind, Option.some_bind]
  cases hb : r.brain_context with
  | none =>
    dsimp only [ctxOptJson]
    rw [parseCtxOpt_null]
    dsimp only [Option.bind_eq_bind, Option.some_bind]
    rw [expectLit_append]
    dsimp only [Option.bind_eq_bind, Option.some_bind]
    rw [parseJString_jsonStr _ _ _ hq]
    dsimp only [Option.bind_eq_bind, Option.some_bind]
    rw [expectLit_append]
    dsimp only [Option.bind_eq_bind, Option.some_bind]
    rw [parseBool_append]
    dsimp only [Option.bind_eq_bind, Option.some_bind]
    rw [show expectLit "\x7d".data "\x7d".data = some ([] : List Char) from rfl]
    rfl
  | some c =>
    obtain ⟨hch, huid⟩ := hctx c hb
    dsimp only [ctxOptJson]
    rw [parseCtxOpt_ctxJson _ _ _ hch huid]
    dsimp only [Option.bind_eq_bind, Option.some_bind]
    rw [expectLit_append]
    dsimp only [Option.bind_eq_bind, Option.some_bind]
    rw [parseJString_jsonStr _ _ _ hq]
    dsimp only [Option.bind_eq_bind, Option.some_bind]
    rw [expectLit_append]
    dsimp only [Option.bind_eq_bind, Option.some_bind]
    rw [parseBool_append]
    dsimp only [Option.bind_eq_bind, Option.some_bind]
    rw [show expectLit "\x7d".data "\x7d".data = some ([] : List Char) from rfl]
    rfl

/-- Injectivity of the digest input on the three hashed components. -/
theorem hashInputChars_inj (r1 r2 : QueryRequest)
    (h : hashInputChars r1 = hashInputChars r2) :
    r1.brain_context = r2.brain_context ∧ r1.query = r2.query
      ∧ r1.reasoning = r2.reasoning := by
  have hf1 : r1.query.data.length
      < r1.query.data.length + r2.query.data.length
        + ctxLen r1.brain_context + ctxLen r2.brain_context + 1 := by omega
  have hf2 : r2.query.data.length
      < r1.query.data.length + r2.query.data.length
        + ctxLen r1.brain_context + ctxLen r2.brain_context + 1 := by omega
  have hc1 : ∀ c, r1.brain_context = some c →
      c.channel.data.length < r1.query.data.length + r2.query.data.length
          + ctxLen r1.brain_context + ctxLen r2.brain_context + 1
        ∧ c.user_id.data.length < r1.query.data.length + r2.query.data.length
          + ctxLen r1.brain_context + ctxLen r2.brain_context + 1 := by
    intro c hc
    have : ctxLen r1.brain_context = c.channel.data.length + c.user_id.data.length := by
      rw [hc]; rfl
    omega
  have hc2 : ∀ c, r2.brain_context = some c →
      c.channel.data.length < r1.query.data.length + r2.query.data.length
          + ctxLen r1.brain_context + ctxLen r2.brain_context + 1
        ∧ c.user_id.data.length < r1.query.data.length + r2.query.data.length
          + ctxLen r1.brain_context + ctxLen r2.brain_context + 1 := by
    intro c hc
    have : ctxLen r2.brain_context = c.channel.data.length + c.user_id.data.length := by
      rw [hc]; rfl
    omega
  have h1 := decodeHashInput_hashInputChars r1 _ hf1 hc1
  have h2 := decodeHashInput_hashInputChars r2 _ hf2 hc2
  rw [h] at h1
  have := h1.symm.trans h2
  simp only [Option.some.injEq, Prod.mk.injEq] at this
  exact ⟨this.1, this.2.1, this.2.2⟩

/-- Claim C4: the cache digest is deterministic and content-sensitive.
Two requests with identical query text, reasoning flag and structurally
equal context produce the same digest input (hence the same md5 digest);
requests differing in at least one of the three components produce
different digest inputs (hence different digests, md5 collisions aside —
the digest is md5 of this serialization, a fixed deterministic
function). -/
theorem C4_digest_deterministic_and_content_sensitive (r1 r2 : QueryRequest) :
    ((r1.query, r1.reasoning, r1.brain_context) = (r2.query, r2.reasoning, r2.brain_context) →
      generate_query_hash r1 = generate_query_hash r2)
    ∧ ((r1.query, r1.reasoning, r1.brain_context) ≠ (r2.query, r2.reasoning, r2.brain_context) →
      generate_query_hash r1 ≠ generate_query_hash r2) := by
  constructor
  · intro h
    simp only [Prod.mk.injEq] at h
    obtain ⟨hq, hr, hb⟩ := h
    unfold generate_query_hash hashInputChars
    rw [hq, hr, hb]
  · intro h hcontra
    apply h
    have hchars : hashInputChars r1 = hashInputChars r2 := congrArg String.data hcontra
    obtain ⟨hb, hq, hr⟩ := hashInputChars_inj r1 r2 hchars
    rw [hq, hr, hb]

/-- Fixture requests for the digest witness: same query text and
context, different reasoning flag. -/
def reqPlain : QueryRequest := { query := "SELECT ?s WHERE \x7b ?s ?p ?o \x7d" }

def reqReasoning : QueryRequest :=
  { query := "SELECT ?s WHERE \x7b ?s ?p ?o \x7d", reasoning := true }

/-- Witness for C4 at concrete requests differing only in the reasoning
flag: the hashed triples differ and so do the digests. -/
theorem C4_digest_witness :
    (reqPlain.query, reqPlain.reasoning, reqPlain.brain_context)
        ≠ (reqReasoning.query, reqReasoning.reasoning, reqReasoning.brain_context)
    ∧ generate_query_hash reqPlain ≠ generate_query_hash reqReasoning :=
  ⟨by decide,
    (C4_digest_deterministic_and_content_sensitive reqPlain reqReasoning).2 (by decide)⟩

/-! ### Service state

`RDFServiceManager.__init__` builds an empty graph, seeds it via
`setup_ontology`, and starts with empty `reasoning_cache` / Redis query
cache.  The Redis keyspace `rdf:query:*` is modelled as an association
list from digest to stored response (Redis assumed connected and
reliable; TTLs not modelled).  `nextBlank` is the allocator for fresh
blank-node identifiers (`BNode()`). -/

/-- Rendered term of a result row: the dict built at lines 193-203 of
`main.py` (branching on URIRef / Literal / blank node). -/
structure TermJson where
  type : String
  value : String
  datatype : Option String
  language : Option String
deriving DecidableEq, Repr

/-- `str(BNode)` label, modelled as an opaque rendering of the id. -/
def blankLabel (n : Nat) : String := ⟨'b' :: natStr n⟩

def renderTerm : Term → TermJson
  | .iri v => ⟨"uri", v, none, none⟩
  | .lit v dt lang => ⟨"literal", v, dt, lang⟩
  | .blank n => ⟨"blank", blankLabel n, none, none⟩

/-- A raw binding row (projection variable to bound term), as produced
by the rdflib evaluation that `execute_sparql_query` iterates over. -/
abbrev Row := List (String × Term)

abbrev ResultRow := List (String × TermJson)

def renderRow (r : Row) : ResultRow := r.map (fun p => (p.1, renderTerm p.2))

/-- `QueryResponse` (wall-clock timing and the fixed-constant insight
payloads are not modelled). -/
structure QueryResponse where
  success : Bool
  results : List ResultRow
  reasoning_applied : Bool
  query_hash : String
  total_results : Nat
  error : Option String
deriving DecidableEq, Repr

structure ServiceState where
  graph : RdfGraph
  reasoningCache : List (String × String)
  queryCache : List (String × QueryResponse)
  nextBlank : Nat
deriving DecidableEq

/-- State at service start: baseline ontology, empty caches. -/
def initialState : ServiceState := ⟨setup_ontology ∅, [], [], 0⟩

/-- The cache key chosen at line 151:
`query_hash = query_data.query_hash or self.generate_query_hash(...)`.
Python `or` treats an empty string as falsy, so an empty supplied hash
falls through to the computed digest. -/
def used_query_hash (req : QueryRequest) : String :=
  match req.query_hash with
  | some h => if h = "" then generate_query_hash req else h
  | none => generate_query_hash req

def cacheLookup (k : String) : List (String × QueryResponse) → Option QueryResponse
  | [] => none
  | (k', v) :: c => if k' = k then some v else cacheLookup k c

/-- Redis `setex`: store under the key, replacing any previous entry. -/
def cacheInsert (k : String) (v : QueryResponse)
    (c : List (String × QueryResponse)) : List (String × QueryResponse) :=
  (k, v) :: c.filter (fun p => p.1 ≠ k)

/-- The rdflib `prepareQuery` + `graph.query` evaluation, abstracted as
an external collaborator: enhanced query text and graph in, either a
failure (`SyntaxError`, timeout, ...) or the full list of binding rows. -/
abbrev SparqlEval := List Char → RdfGraph → Except String (List Row)

/-- Python list slicing `xs[:limit]` (a negative bound counts from the
end, clamped at zero). -/
def pySlice (limit : Int) (xs : List ResultRow) : List ResultRow :=
  if 0 ≤ limit then xs.take limit.toNat else xs.take ((xs.length : Int) + limit).toNat

/-- The graph the query runs on: the reasoned expansion when
`reasoning` is requested, the base graph otherwise (lines 164-167). -/
def working_graph (reason : RdfGraph → RdfGraph) (st : ServiceState)
    (req : QueryRequest) : RdfGraph :=
  if req.reasoning then reason st.graph else st.graph

/-- `execute_sparql_query` (lines 146-260): pick the cache key, return a
cached response verbatim on a hit; otherwise evaluate against the
working graph, truncate the fully evaluated rows to `limit`
(`results[:limit]`), and cache the successful response under the key.
Failures return `success := false` with `reasoning_applied := false`
and are not cached. -/
def execute_sparql_query (ev : SparqlEval) (reason : RdfGraph → RdfGraph)
    (st : ServiceState) (req : QueryRequest) : QueryResponse × ServiceState :=
  let qh := used_query_hash req
  match cacheLookup qh st.queryCache with
  | some cached => (cached, st)
  | none =>
    let enhanced := enhance_query_with_brain_context req.query.data req.brain_context
    match ev enhanced (working_graph reason st req) with
    | .error e =>
      ({ success := false, results := [], reasoning_applied := false, query_hash := qh,
         total_results := 0, error := some e }, st)
    | .ok rows =>
      let results0 := if req.query_type = "SELECT" then rows.map renderRow else []
      let results :=
        if (results0.length : Int) > req.limit then pySlice req.limit results0 else results0
      let resp : QueryResponse :=
        { success := true, results := results, reasoning_applied := req.reasoning,
          query_hash := qh, total_results := results.length, error := none }
      (resp, { st with queryCache := cacheInsert qh resp st.queryCache })

/-! ### The reasoner (`apply_reasoning`, lines 307-324)

The source copies the base graph triple by triple into a fresh graph and
calls `owlrl.DeductiveClosure(OWLRL_Semantics, ...).expand` on the copy.
The owlrl engine is an external library (not part of this repository);
modelled from the spec (§4.2): a fixed catalogue of rules, each a pure
function from the current triple set to the triples it licenses, unioned
into the accumulating set until a fixpoint or an iteration cap. -/

abbrev InferenceRule := RdfGraph → RdfGraph

def ruleStep (rules : List InferenceRule) (g : RdfGraph) : RdfGraph :=
  rules.foldl (fun acc r => acc ∪ r g) g

def closureIter (rules : List InferenceRule) : Nat → RdfGraph → RdfGraph
  | 0, g => g
  | n + 1, g =>
    let g' := ruleStep rules g
    if g' = g then g else closureIter rules n g'

/-- `apply_reasoning`: expand a copy of the base graph; the service
state (and hence the base graph) is returned untouched. -/
def apply_reasoning (rules : List InferenceRule) (cap : Nat)
    (st : ServiceState) : RdfGraph × ServiceState :=
  let reasoning_graph := st.graph
  (closureIter rules cap reasoning_graph, st)

/-! ### `import_rdf_data` (lines 471-516) -/

structure RDFImportRequest where
  data : String
  format : String := "turtle"
  validation : Bool := true
  clear_graph : Bool := false
  named_graph : Option String := none
deriving DecidableEq, Repr

structure ImportResult where
  success : Bool
  triples_imported : Int
  total_triples : Option Nat
  error : Option String
deriving DecidableEq, Repr

/-- The rdflib text parser, abstracted as an external collaborator:
(data, format) to either a `SyntaxError` message or the parsed triple
set.  It is a pure function, so validating and importing the same data
parse identically. -/
abbrev RdfParser := String → String → Except String (Finset Triple)

/-- `import_rdf_data`: record the size, clear + re-seed when
`clear_graph` is set (before any validation!), validate into a scratch
graph when requested, merge the parsed triples into the (possibly
re-seeded) graph, clear both caches, and report
`len(graph) - initial_size` as `triples_imported`.  A parse failure is
caught and reported as `success := false`, but a clear that already
happened is not rolled back. -/
def import_rdf_data (parse : RdfParser) (st : ServiceState)
    (req : RDFImportRequest) : ImportResult × ServiceState :=
  let initial_size := st.graph.card
  let g1 := if req.clear_graph then setup_ontology ∅ else st.graph
  match (if req.validation then (parse req.data req.format).map (fun _ => ()) else .ok ()) with
  | .error e =>
    ({ success := false, triples_imported := 0, total_triples := none, error := some e },
     { st with graph := g1 })
  | .ok _ =>
    match parse req.data req.format with
    | .error e =>
      ({ success := false, triples_imported := 0, total_triples := none, error := some e },
       { st with graph := g1 })
    | .ok ts =>
      let g2 := g1 ∪ ts
      ({ success := true, triples_imported := (g2.card : Int) - (initial_size : Int),
         total_triples := some g2.card, error := none },
       { st with graph := g2, reasoningCache := [], queryCache := [] })

/-! ### `evolve_concept` (lines 335-407)

Only the fields the source reads are modelled: `concept_id`,
`concept_name`, `current_properties['activation_strength']` (a float
compared against 0.8, modelled as a rational), and the
`new_information` items (subject / predicate / object, whether the
object is a string, and an optional confidence value rendered as a
literal).  The operation mutates the base graph and touches neither the
reasoning cache nor the query cache. -/

structure NewInfoItem where
  subject : String
  predicate : String
  objectIsString : Bool
  objectStr : String
  confidence : Option String
deriving DecidableEq, Repr

structure ConceptEvolutionRequest where
  concept_id : String
  concept_name : String
  activation_strength : Option ℚ
  new_information : List NewInfoItem
deriving DecidableEq, Repr

structure EvolveResult where
  success : Bool
  concept_id : String
  evolution_applied : Bool
deriving DecidableEq, Repr

def pyStartsWith (s pre : String) : Bool := pre.data.isPrefixOf s.data

/-- One iteration of the `new_information` loop: add the triple, and —
when a confidence value is present — a fresh blank node carrying it. -/
def addInfoItem (curi : Term) (acc : RdfGraph × Nat) (info : NewInfoItem) :
    RdfGraph × Nat :=
  let subj := if pyStartsWith info.subject "http" then Term.iri info.subject else curi
  let pred := Term.iri info.predicate
  let obj := if info.objectIsString then Term.lit info.objectStr none none
    else Term.iri info.objectStr
  let g1 := insert ⟨subj, pred, obj⟩ acc.1
  match info.confidence with
  | none => (g1, acc.2)
  | some conf =>
    let bn := Term.blank acc.2
    (insert ⟨subj, omniiNs "hasEvidence", bn⟩
      (insert ⟨bn, omniiNs "hasConfidence", Term.lit conf none none⟩ g1), acc.2 + 1)

def evolve_concept (st : ServiceState) (req : ConceptEvolutionRequest) :
    EvolveResult × ServiceState :=
  let curi := conceptNs req.concept_id
  let g0 := insert ⟨curi, rdfsLabel, Term.lit req.concept_name none none⟩
    (insert ⟨curi, rdfType, omniiNs "Concept"⟩ st.graph)
  let gp := req.new_information.foldl (addInfoItem curi) (g0, st.nextBlank)
  let changed := decide ((req.activation_strength.getD 0) < (4 / 5 : ℚ))
  ({ success := true, concept_id := req.concept_id, evolution_applied := changed },
   { st with graph := gp.1, nextBlank := gp.2 })

/-! ### Reasoner lemmas (claims C6, C7) -/

theorem subset_foldl_union (rules : List InferenceRule) (g : RdfGraph) :
    ∀ acc : RdfGraph, acc ⊆ rules.foldl (fun a r => a ∪ r g) acc := by
  induction rules with
  | nil => intro acc; simp [List.foldl_nil]
  | cons r rs ih =>
    intro acc
    simp only [List.foldl_cons]
    exact Finset.Subset.trans Finset.subset_union_left (ih (acc ∪ r g))

theorem subset_ruleStep (rules : List InferenceRule) (g : RdfGraph) :
    g ⊆ ruleStep rules g :=
  subset_foldl_union rules g g

theorem subset_closureIter (rules : List InferenceRule) :
    ∀ (n : Nat) (g : RdfGraph), g ⊆ closureIter rules n g := by
  intro n
  induction n with
  | zero => intro g; exact Finset.Subset.refl g
  | succ n ih =>
    intro g
    unfold closureIter
    dsimp only
    split
    · exact Finset.Subset.refl g
    · exact Finset.Subset.trans (subset_ruleStep rules g) (ih (ruleStep rules g))

/-- Claim C6: the reasoner is monotonic — the graph returned by
`apply_reasoning` contains every triple of the base graph (no triple of
the input is removed).  The owlrl engine's rule catalogue is external to
the repository; the engine is modelled from the spec (§4.2) as
union-to-fixpoint application of pure rules, under which monotonicity
holds for every rule catalogue and iteration cap. -/
theorem C6_reasoner_monotonic (rules : List InferenceRule) (cap : Nat)
    (st : ServiceState) :
    st.graph ⊆ (apply_reasoning rules cap st).1 :=
  subset_closureIter rules cap st.graph

/-- Claim C7: applying reasoning never mutates the base graph — the
service state after `apply_reasoning` is exactly the state before, and
in particular the base graph's triple set is unchanged (the reasoned
graph is a separate derived copy). -/
theorem C7_reasoning_preserves_base_graph (rules : List InferenceRule) (cap : Nat)
    (st : ServiceState) :
    (apply_reasoning rules cap st).2 = st
      ∧ (apply_reasoning rules cap st).2.graph = st.graph :=
  ⟨rfl, rfl⟩

/-! ### Query limit (claim C5) -/

/-- Claim C5 (amended): for a successful SELECT query with *nonnegative*
requested limit, the limit is a post-filter over the fully evaluated row
list: the returned rows are the first `limit` of the full evaluation and
`total_results = min limit (full row count)`, with `reasoning_applied`
echoing the request flag.  (The unamended claim fails for a negative
limit, which Python slicing interprets from the end; see the
counterexample.) -/
theorem C5_limit_is_post_filter (ev : SparqlEval) (reason : RdfGraph → RdfGraph)
    (st : ServiceState) (req : QueryRequest) (rows : List Row)
    (hsel : req.query_type = "SELECT")
    (hlim : 0 ≤ req.limit)
    (hmiss : cacheLookup (used_query_hash req) st.queryCache = none)
    (hev : ev (enhance_query_with_brain_context req.query.data req.brain_context)
      (working_graph reason st req) = .ok rows) :
    (execute_sparql_query ev reason st req).1.success = true
    ∧ (execute_sparql_query ev reason st req).1.total_results
        = min req.limit.toNat rows.length
    ∧ (execute_sparql_query ev reason st req).1.results
        = (rows.map renderRow).take req.limit.toNat
    ∧ (execute_sparql_query ev reason st req).1.reasoning_applied = req.reasoning := by
  have hlen : (rows.map renderRow).length = rows.length := List.length_map rows renderRow
  simp only [execute_sparql_query, hmiss, hev, hsel, eq_self_iff_true, if_true]
  by_cases htr : (((rows.map renderRow).length : Int) > req.limit)
  · simp only [if_pos htr, pySlice, if_pos hlim]
    refine ⟨by trivial, ?_, by trivial, by trivial⟩
    rw [List.length_take, hlen]
  · simp only [if_neg htr]
    have hle : rows.length ≤ req.limit.toNat := by omega
    refine ⟨by trivial, ?_, ?_, by trivial⟩
    · rw [hlen]; omega
    · rw [List.take_of_length_le (by rw [hlen]; exact hle)]

/-- The end-to-end full-scan fixture: `SELECT ?s ?p ?o WHERE { ?s ?p ?o }`
over the baseline-only store returns one row per baseline triple.  This
concrete evaluator stands in for rdflib's evaluation of that query. -/
def baselineRows : List Row :=
  baselineTriples.map (fun t => [("s", t.subj), ("p", t.pred), ("o", t.obj)])

def fullScanEval : SparqlEval := fun _ _ => .ok baselineRows

def fullScanQueryText : String := "SELECT ?s ?p ?o WHERE \x7b ?s ?p ?o \x7d"

def c5Req : QueryRequest := { query := fullScanQueryText, limit := 5 }

/-- Witness for the amended C5 at the spec's end-to-end scenario:
baseline-only store, `limit = 5`, `reasoning = false` gives
`total_results = min 5 17 = 5` and `reasoning_applied = false`. -/
theorem C5_limit_witness :
    c5Req.query_type = "SELECT" ∧ (0 : Int) ≤ c5Req.limit
    ∧ (execute_sparql_query fullScanEval id initialState c5Req).1.success = true
    ∧ (execute_sparql_query fullScanEval id initialState c5Req).1.total_results = 5
    ∧ (execute_sparql_query fullScanEval id initialState c5Req).1.reasoning_applied = false := by
  have h := C5_limit_is_post_filter fullScanEval id initialState c5Req baselineRows
    rfl (by decide) rfl rfl
  refine ⟨rfl, by decide, h.1, ?_, h.2.2.2⟩
  rw [h.2.1]
  decide

def c5NegReq : QueryRequest := { query := fullScanQueryText, limit := -1 }

/-- Claim C5 (counterexample): with limit `-1` over the 17-row full
scan, Python slicing `results[:-1]` keeps 16 rows and the reported
`total_results` is 16, not `min(-1, 17) = -1` — the claimed equation
fails for a negative limit. -/
theorem C5_counterexample_negative_limit :
    (execute_sparql_query fullScanEval id initialState c5NegReq).1.total_results = 16
    ∧ ¬((16 : Int) = min (-1 : Int) (baselineRows.length : Int)) := by
  constructor
  · decide
  · decide

/-! ### Cache-key selection (claim C9) -/

theorem cacheLookup_insert (k : String) (v : QueryResponse)
    (c : List (String × QueryResponse)) :
    cacheLookup k (cacheInsert k v c) = some v := by
  simp [cacheLookup, cacheInsert]

/-- A cache hit returns the stored response verbatim, state unchanged. -/
theorem execute_cache_hit (ev : SparqlEval) (reason : RdfGraph → RdfGraph)
    (st : ServiceState) (req : QueryRequest) (resp : QueryResponse)
    (hhit : cacheLookup (used_query_hash req) st.queryCache = some resp) :
    execute_sparql_query ev reason st req = (resp, st) := by
  simp only [execute_sparql_query, hhit]

/-- On a cache miss with successful evaluation, the response is built
from the full row list and stored under the chosen key. -/
theorem execute_cache_miss_ok (ev : SparqlEval) (reason : RdfGraph → RdfGraph)
    (st : ServiceState) (req : QueryRequest) (rows : List Row)
    (hmiss : cacheLookup (used_query_hash req) st.queryCache = none)
    (hev : ev (enhance_query_with_brain_context req.query.data req.brain_context)
      (working_graph reason st req) = .ok rows) :
    (execute_sparql_query ev reason st req).2.queryCache
      = cacheInsert (used_query_hash req) (execute_sparql_query ev reason st req).1
          st.queryCache := by
  simp only [execute_sparql_query, hmiss, hev]

/-- Claim C9 (amended): a non-empty caller-supplied `query_hash` is used
verbatim as the cache key for both lookup and storage, regardless of the
query text; hence a second request with the same supplied hash but
different query text is served the first request's cached response. -/
theorem C9_supplied_hash_used_verbatim (ev : SparqlEval) (reason : RdfGraph → RdfGraph)
    (st : ServiceState) (req1 req2 : QueryRequest) (h : String) (rows : List Row)
    (h1 : req1.query_hash = some h) (h2 : req2.query_hash = some h) (hne : h ≠ "")
    (hmiss : cacheLookup h st.queryCache = none)
    (hev : ev (enhance_query_with_brain_context req1.query.data req1.brain_context)
      (working_graph reason st req1) = .ok rows) :
    used_query_hash req1 = h ∧ used_query_hash req2 = h
    ∧ execute_sparql_query ev reason (execute_sparql_query ev reason st req1).2 req2
        = ((execute_sparql_query ev reason st req1).1,
           (execute_sparql_query ev reason st req1).2) := by
  have hu1 : used_query_hash req1 = h := by
    unfold used_query_hash; rw [h1]; exact if_neg hne
  have hu2 : used_query_hash req2 = h := by
    unfold used_query_hash; rw [h2]; exact if_neg hne
  refine ⟨hu1, hu2, ?_⟩
  apply execute_cache_hit
  rw [hu2]
  rw [execute_cache_miss_ok ev reason st req1 rows (by rw [hu1]; exact hmiss) hev, hu1]
  exact cacheLookup_insert h _ _

def req9a : QueryRequest :=
  { query := "SELECT ?s WHERE \x7b ?s a omnii:Concept \x7d", query_hash := some "shared-key" }

def req9b : QueryRequest :=
  { query := "SELECT ?p WHERE \x7b ?x ?p ?y \x7d", query_hash := some "shared-key" }

/-- Witness for the amended C9: two concrete requests with different
query text but the same supplied key; the second is served the first's
response. -/
theorem C9_verbatim_witness :
    req9a.query ≠ req9b.query
    ∧ used_query_hash req9a = "shared-key" ∧ used_query_hash req9b = "shared-key"
    ∧ execute_sparql_query fullScanEval id
        (execute_sparql_query fullScanEval id initialState req9a).2 req9b
      = ((execute_sparql_query fullScanEval id initialState req9a).1,
         (execute_sparql_query fullScanEval id initialState req9a).2) := by
  have h := C9_supplied_hash_used_verbatim fullScanEval id initialState req9a req9b
    "shared-key" baselineRows rfl rfl (by decide) rfl rfl
  exact ⟨by decide, h.1, h.2.1, h.2.2⟩

def c9EmptyReq : QueryRequest :=
  { query := "SELECT ?s WHERE \x7b ?s ?p ?o \x7d", query_hash := some "" }

/-- Claim C9 (counterexample): a request carrying `query_hash = ""` is
*not* used verbatim — Python `or` treats the empty string as falsy, so
the content digest is computed and used as the key instead. -/
theorem C9_counterexample_empty_supplied_hash :
    c9EmptyReq.query_hash = some ""
    ∧ used_query_hash c9EmptyReq = generate_query_hash c9EmptyReq
    ∧ generate_query_hash c9EmptyReq ≠ "" := by
  refine ⟨rfl, rfl, ?_⟩
  decide

/-! ### Cache invalidation frame (claim C8) -/

/-- Claim C8: `evolve_concept` mutates the base graph but performs no
cache invalidation — every query-cache entry present before the call is
still present after it — whereas every `import_rdf_data` call that
returns success drops all query-cache entries before returning. -/
theorem C8_evolve_keeps_cache_import_clears_it :
    (∀ (st : ServiceState) (req : ConceptEvolutionRequest),
      (evolve_concept st req).2.queryCache = st.queryCache)
    ∧ (∀ (parse : RdfParser) (st : ServiceState) (req : RDFImportRequest),
        (import_rdf_data parse st req).1.success = true →
        (import_rdf_data parse st req).2.queryCache = []) := by
  constructor
  · intro st req; rfl
  · intro parse st req hsucc
    unfold import_rdf_data at hsucc ⊢
    cases hval : (if req.validation then (parse req.data req.format).map (fun _ => ())
        else Except.ok ()) with
    | error e =>
      simp only [hval] at hsucc
      exact absurd hsucc (by decide)
    | ok u =>
      simp only [hval] at hsucc ⊢
      cases hp : parse req.data req.format with
      | error e =>
        simp only [hp] at hsucc
        exact absurd hsucc (by decide)
      | ok ts => simp only [hp]

/-- Fixtures for the cache-invalidation witness. -/
def dummyResp : QueryResponse :=
  { success := true, results := [], reasoning_applied := false, query_hash := "k",
    total_results := 0, error := none }

def cachedState : ServiceState :=
  { graph := setup_ontology ∅, reasoningCache := [], queryCache := [("k", dummyResp)],
    nextBlank := 0 }

def toyTriple : Triple := ⟨Term.iri "http://example.org/c1", rdfType, omniiNs "Concept"⟩

/-- A concrete parser: fails with a syntax error on the text `"bad"`,
parses anything else to one example triple. -/
def toyParse : RdfParser := fun d _ =>
  if d = "bad" then .error "SyntaxError: malformed input"
  else .ok {toyTriple}

def evolveReq : ConceptEvolutionRequest :=
  { concept_id := "c-1", concept_name := "test concept",
    activation_strength := some (3 / 5 : ℚ), new_information := [] }

def importReq : RDFImportRequest := { data := "good" }

/-- Witness for C8 at concrete inputs: a non-empty query cache survives
an evolve call unchanged, and a successful import empties it. -/
theorem C8_invalidation_witness :
    cachedState.queryCache ≠ []
    ∧ (evolve_concept cachedState evolveReq).2.queryCache = cachedState.queryCache
    ∧ (import_rdf_data toyParse cachedState importReq).1.success = true
    ∧ (import_rdf_data toyParse cachedState importReq).2.queryCache = [] := by
  refine ⟨by decide, C8_evolve_keeps_cache_import_clears_it.1 cachedState evolveReq,
    by decide, C8_evolve_keeps_cache_import_clears_it.2 toyParse cachedState importReq
      (by decide)⟩

/-! ### Import atomicity (claim C1) and the size-delta report (C10) -/

def extraTriple : Triple :=
  ⟨Term.iri "http://example.org/s", Term.iri "http://example.org/p",
   Term.lit "v" none none⟩

def extraTriple2 : Triple :=
  ⟨Term.iri "http://example.org/s2", Term.iri "http://example.org/p2",
   Term.lit "w" none none⟩

/-- A state whose graph holds one triple beyond the baseline. -/
def preState : ServiceState :=
  { graph := insert extraTriple (setup_ontology ∅), reasoningCache := [],
    queryCache := [], nextBlank := 0 }

def badClearReq : RDFImportRequest := { data := "bad", validation := true, clear_graph := true }

/-- Claim C1 (code bug): an import with `validation = true` and
`clear_graph = true` whose data fails to parse reports
`success = false`, but the base graph is *not* the graph from before the
call: the source clears and re-seeds the graph *before* running
validation, so the failed call leaves the re-seeded baseline behind —
the partial mutation the spec's validate-then-commit contract (and this
claim) forbids. -/
theorem C1_failed_validation_with_clear_mutates_graph :
    (import_rdf_data toyParse preState badClearReq).1.success = false
    ∧ (import_rdf_data toyParse preState badClearReq).2.graph ≠ preState.graph
    ∧ (import_rdf_data toyParse preState badClearReq).2.graph = setup_ontology ∅ := by
  refine ⟨rfl, ?_, rfl⟩
  decide

/-- Claim C10: for every successful import with `clear_graph = true`,
the reported `triples_imported` equals (graph size after import) minus
(graph size before the clear) — so it is negative whenever the
pre-existing graph held more triples than the re-seeded baseline plus
the imported data. -/
theorem C10_triples_imported_is_size_delta (parse : RdfParser) (st : ServiceState)
    (req : RDFImportRequest) (ts : Finset Triple)
    (hclear : req.clear_graph = true)
    (hok : parse req.data req.format = .ok ts) :
    (import_rdf_data parse st req).1.success = true
    ∧ (import_rdf_data parse st req).1.triples_imported
        = ((setup_ontology ∅ ∪ ts).card : Int) - (st.graph.card : Int)
    ∧ ((setup_ontology ∅ ∪ ts).card < st.graph.card →
        (import_rdf_data parse st req).1.triples_imported < 0) := by
  unfold import_rdf_data
  have hg1 : (if req.clear_graph = true then setup_ontology ∅ else st.graph)
      = setup_ontology ∅ := by rw [hclear]; simp
  have hvalok : (if req.validation = true
        then Except.map (fun _ => ()) (Except.ok ts : Except String (Finset Triple))
        else Except.ok ())
      = Except.ok () := by
    cases req.validation <;> simp [Except.map]
  simp only [hok, hg1, hvalok]
  exact ⟨trivial, trivial, fun hlt => by omega⟩

/-- A state whose graph holds two triples beyond the baseline (19
triples). -/
def preState2 : ServiceState :=
  { graph := insert extraTriple2 (insert extraTriple (setup_ontology ∅)),
    reasoningCache := [], queryCache := [], nextBlank := 0 }

def clearImportReq : RDFImportRequest := { data := "good", clear_graph := true }

/-- Witness for C10: clearing a 19-triple graph and importing one new
triple yields 18 triples, and the report says `18 - 19 = -1`. -/
theorem C10_negative_report_witness :
    clearImportReq.clear_graph = true
    ∧ (import_rdf_data toyParse preState2 clearImportReq).1.success = true
    ∧ (import_rdf_data toyParse preState2 clearImportReq).1.triples_imported = -1
    ∧ (import_rdf_data toyParse preState2 clearImportReq).1.triples_imported < 0 := by
  have h := C10_triples_imported_is_size_delta toyParse preState2 clearImportReq
    ({toyTriple} : Finset Triple) rfl rfl
  refine ⟨rfl, h.1, ?_, h.2.2 (by decide)⟩
  rw [h.2.1]
  decide

end OmniiRdf
